import Mathlib

/-
Verification of the temporal-stabilization pipeline of the sign-language
translator (script.js, api client).

Shallow embedding conventions:
  * JS numbers used for timestamps are modelled as integers (milliseconds);
    confidences and ratios are modelled as rationals.
  * Mutable globals of script.js (translationHistory, lastGesture,
    gestureStartTime, lastTwoHandGesture, twoHandGestureStartTime,
    currentHoldProgress) together with the prediction history of the api
    client and the DOM text fields touched by the embedded code paths are
    collected in one record, SystemState.
  * DOM/canvas drawing is pure rendering and is not modelled, except for the
    text fields written by the branches under study (hand count, current
    gesture, confidence), so that each embedded branch keeps its real effect.
  * async functions returning null are modelled with Option.
-/

namespace ProjectSign

/-- Configuration object of script.js (CONFIG, lines 6-25); only the fields
consumed by the embedded logic are kept. -/
structure Config where
  GESTURE_HOLD_DELAY : ℤ
  MIN_CONFIDENCE : ℚ
deriving DecidableEq

/-- CONFIG from script.js: hold delay 2000 ms, minimum confidence 0.7. -/
def CONFIG : Config := { GESTURE_HOLD_DELAY := 2000, MIN_CONFIDENCE := 7/10 }

/-- A gesture object as produced by recognizeGestureWithTF:
name, translation and confidence. -/
structure Gesture where
  name : String
  translation : String
  confidence : ℚ
deriving DecidableEq

/-- One entry of the api client prediction history:
prediction string, confidence and arrival timestamp (Date.now()). -/
structure HistEntry where
  prediction : String
  confidence : ℚ
  timestamp : ℤ
deriving DecidableEq

/-- The mutable globals of script.js together with the api client
prediction history and the DOM text fields written by the embedded code. -/
structure SystemState where
  translationHistory : List String
  lastGesture : String
  gestureStartTime : ℤ
  lastTwoHandGesture : String
  twoHandGestureStartTime : ℤ
  currentHoldProgress : ℚ
  predictionHistory : List HistEntry
  handCountDisplay : ℕ
  currentGestureDisplay : String
  confidenceDisplay : ℤ
deriving DecidableEq

/-- Initial values of the globals of script.js. -/
def initialState : SystemState :=
  { translationHistory := []
    lastGesture := ""
    gestureStartTime := 0
    lastTwoHandGesture := ""
    twoHandGestureStartTime := 0
    currentHoldProgress := 0
    predictionHistory := []
    handCountDisplay := 0
    currentGestureDisplay := ""
    confidenceDisplay := 0 }

/-- addTranslation (script.js): append to translationHistory unless the text
is empty (the falsy-string guard of the source). -/
def addTranslation (text : String) (s : SystemState) : SystemState :=
  if text = "" then s
  else { s with translationHistory := s.translationHistory ++ [text] }

/-- updateHoldProgress (script.js): record the hold progress (the DOM
progress-bar write is rendering only). -/
def updateHoldProgress (progress : ℚ) (s : SystemState) : SystemState :=
  { s with currentHoldProgress := progress }

/-- displayAndProcessGesture (script.js, lines 379-453): update the gesture
display, then run the hold-commit logic of the selected stream.  A gesture
equal to the tracked one either keeps holding (progress updated) or, once
now - startTime has reached CONFIG.GESTURE_HOLD_DELAY, commits the
translation and pushes the start time to now + 1000 (the cooldown); a
different gesture restarts tracking at now. -/
def displayAndProcessGesture (gesture : Gesture) (isTwoHand : Bool) (now : ℤ)
    (s : SystemState) : SystemState :=
  let s :=
    { s with
      currentGestureDisplay :=
        gesture.name ++ (if isTwoHand then " (2 Tangan)" else "")
      confidenceDisplay := round (gesture.confidence * 100) }
  let lastGestureVar := if isTwoHand then s.lastTwoHandGesture else s.lastGesture
  let gestureTimeVar :=
    if isTwoHand then s.twoHandGestureStartTime else s.gestureStartTime
  if gesture.name = lastGestureVar then
    let holdTime := now - gestureTimeVar
    let progress := min ((holdTime : ℚ) / (CONFIG.GESTURE_HOLD_DELAY : ℚ)) 1
    let s := updateHoldProgress progress s
    if CONFIG.GESTURE_HOLD_DELAY ≤ holdTime then
      let s := addTranslation gesture.translation s
      let s :=
        if isTwoHand then { s with twoHandGestureStartTime := now + 1000 }
        else { s with gestureStartTime := now + 1000 }
      updateHoldProgress 0 s
    else s
  else
    let s :=
      if isTwoHand then
        { s with lastTwoHandGesture := gesture.name
                 twoHandGestureStartTime := now }
      else
        { s with lastGesture := gesture.name, gestureStartTime := now }
    updateHoldProgress 0 s

/-- clearOutput (script.js, lines 575-590): empty the transcript and reset
the gesture-tracking variables of both streams.  The source does not touch
the api client prediction history. -/
def clearOutput (s : SystemState) : SystemState :=
  let s := { s with translationHistory := [] }
  let s :=
    { s with lastGesture := ""
             lastTwoHandGesture := ""
             gestureStartTime := 0
             twoHandGestureStartTime := 0
             currentHoldProgress := 0 }
  updateHoldProgress 0 s

/-- The zero-hands branch of onHandsResults (script.js, lines 335-340): only
the hand count, current gesture and confidence text fields are rewritten;
no tracking variable and no history is touched. -/
def onHandsResultsNoHands (s : SystemState) : SystemState :=
  { s with handCountDisplay := 0
           currentGestureDisplay := "-"
           confidenceDisplay := 0 }

/-- Feeding one recognized gesture per frame at the given times through
displayAndProcessGesture (the per-frame path of processTranslationGestures
for a recognized gesture). -/
def runFrames (gesture : Gesture) (isTwoHand : Bool) (times : List ℤ)
    (s : SystemState) : SystemState :=
  times.foldl (fun s t => displayAndProcessGesture gesture isTwoHand t s) s

section HoldLemmas

/-- A gesture differing from the tracked single-hand candidate restarts
tracking: no commit, candidate and start time replaced. -/
lemma dapg_switch_single (g : Gesture) (now : ℤ) (s : SystemState)
    (h : g.name ≠ s.lastGesture) :
    (displayAndProcessGesture g false now s).translationHistory
        = s.translationHistory ∧
    (displayAndProcessGesture g false now s).lastGesture = g.name ∧
    (displayAndProcessGesture g false now s).gestureStartTime = now ∧
    (displayAndProcessGesture g false now s).currentHoldProgress = 0 := by
  simp [displayAndProcessGesture, updateHoldProgress, h]

/-- A gesture differing from the tracked two-hand candidate restarts
tracking on the two-hand stream. -/
lemma dapg_switch_two (g : Gesture) (now : ℤ) (s : SystemState)
    (h : g.name ≠ s.lastTwoHandGesture) :
    (displayAndProcessGesture g true now s).translationHistory
        = s.translationHistory ∧
    (displayAndProcessGesture g true now s).lastTwoHandGesture = g.name ∧
    (displayAndProcessGesture g true now s).twoHandGestureStartTime = now ∧
    (displayAndProcessGesture g true now s).currentHoldProgress = 0 := by
  simp [displayAndProcessGesture, updateHoldProgress, h]

/-- Holding below the delay changes neither the transcript nor the tracked
candidate nor its start time. -/
lemma dapg_hold_single (g : Gesture) (now : ℤ) (s : SystemState)
    (h : g.name = s.lastGesture)
    (hlt : now - s.gestureStartTime < CONFIG.GESTURE_HOLD_DELAY) :
    (displayAndProcessGesture g false now s).translationHistory
        = s.translationHistory ∧
    (displayAndProcessGesture g false now s).lastGesture = s.lastGesture ∧
    (displayAndProcessGesture g false now s).gestureStartTime
        = s.gestureStartTime := by
  simp [displayAndProcessGesture, updateHoldProgress, h, not_le.mpr hlt]

/-- Reaching the delay commits the translation once and pushes the start
time to now + 1000. -/
lemma dapg_commit_single (g : Gesture) (now : ℤ) (s : SystemState)
    (h : g.name = s.lastGesture)
    (hge : CONFIG.GESTURE_HOLD_DELAY ≤ now - s.gestureStartTime)
    (htr : g.translation ≠ "") :
    (displayAndProcessGesture g false now s).translationHistory
        = s.translationHistory ++ [g.translation] ∧
    (displayAndProcessGesture g false now s).lastGesture = s.lastGesture ∧
    (displayAndProcessGesture g false now s).gestureStartTime
        = now + 1000 := by
  simp [displayAndProcessGesture, updateHoldProgress, addTranslation, h, hge, htr]

/-- While every frame time stays below start + delay, a held gesture changes
nothing in the transcript or the tracking variables. -/
lemma runFrames_hold (g : Gesture) (times : List ℤ) : ∀ s : SystemState,
    g.name = s.lastGesture →
    (∀ t ∈ times, t - s.gestureStartTime < CONFIG.GESTURE_HOLD_DELAY) →
    (runFrames g false times s).translationHistory = s.translationHistory ∧
    (runFrames g false times s).lastGesture = s.lastGesture ∧
    (runFrames g false times s).gestureStartTime = s.gestureStartTime := by
  induction times with
  | nil => intro s _ _; exact ⟨rfl, rfl, rfl⟩
  | cons t ts ih =>
      intro s hname hts
      have h1 := dapg_hold_single g t s hname (hts t (by simp))
      have h2 := ih (displayAndProcessGesture g false t s)
        (by rw [h1.2.1]; exact hname)
        (by intro u hu; rw [h1.2.2]; exact hts u (by simp [hu]))
      refine ⟨?_, ?_, ?_⟩
      · rw [runFrames] at h2 ⊢
        rw [List.foldl_cons, h2.1, h1.1]
      · rw [runFrames] at h2 ⊢
        rw [List.foldl_cons, h2.2.1, h1.2.1]
      · rw [runFrames] at h2 ⊢
        rw [List.foldl_cons, h2.2.2, h1.2.2]

end HoldLemmas

/-! Temporal consensus filter of the api client (part_003). -/

/-- PREDICTION_HISTORY_SIZE (api client): capacity of the history. -/
def PREDICTION_HISTORY_SIZE : ℕ := 5

/-- MIN_CONFIDENCE (api client, line 17): declared confidence floor. -/
def MIN_CONFIDENCE : ℚ := 60/100

/-- addPredictionToHistory (api client): push the entry, then drop the
oldest one when the size bound is exceeded. -/
def addPredictionToHistory (prediction : String) (confidence : ℚ) (now : ℤ)
    (history : List HistEntry) : List HistEntry :=
  let history := history ++ [⟨prediction, confidence, now⟩]
  if PREDICTION_HISTORY_SIZE < history.length then history.tail else history

/-- The non-null return value of getConsensusPrediction. -/
structure ConsensusResult where
  prediction : Option String
  confidence : ℚ
  agreement : ℚ
  votes : ℕ
  total : ℕ
deriving DecidableEq

/-- Age eviction inside getConsensusPrediction: keep entries strictly
younger than 2000 ms. -/
def filterRecent (now : ℤ) (history : List HistEntry) : List HistEntry :=
  history.filter (fun p => now - p.timestamp < 2000)

/-- One step of the vote-counting loop of getConsensusPrediction: the
entry for an already-seen prediction is updated in place, a new prediction
is appended (JS object keys keep insertion order).  Each list element is
(prediction, vote count, summed confidence). -/
def bump (prediction : String) (confidence : ℚ) :
    List (String × ℕ × ℚ) → List (String × ℕ × ℚ)
  | [] => [(prediction, 1, confidence)]
  | (p, v, t) :: rest =>
      if prediction = p then (p, v + 1, t + confidence) :: rest
      else (p, v, t) :: bump prediction confidence rest

/-- The votes / totalConfidence tables of getConsensusPrediction, built by
iterating over the history. -/
def tally (history : List HistEntry) : List (String × ℕ × ℚ) :=
  history.foldl (fun acc e => bump e.prediction e.confidence acc) []

/-- avgConfidence of one vote group. -/
def avgConf (g : String × ℕ × ℚ) : ℚ := g.2.2 / (g.2.1 : ℚ)

/-- One iteration of the best-prediction loop of getConsensusPrediction:
adopt the group when it has strictly more votes, or equal votes and
strictly higher average confidence.  The accumulator mirrors
(bestPrediction, maxVotes, bestAvgConfidence). -/
def selectStep (acc : Option String × ℕ × ℚ) (g : String × ℕ × ℚ) :
    Option String × ℕ × ℚ :=
  if acc.2.1 < g.2.1 ∨ (g.2.1 = acc.2.1 ∧ acc.2.2 < avgConf g)
  then (some g.1, g.2.1, avgConf g)
  else acc

/-- The best-prediction loop, started from (null, 0, 0) as in the source. -/
def selectBest (groups : List (String × ℕ × ℚ)) : Option String × ℕ × ℚ :=
  groups.foldl selectStep (none, 0, 0)

/-- The vote groups getConsensusPrediction derives from a history at a
given time. -/
def consensusGroups (now : ℤ) (history : List HistEntry) :
    List (String × ℕ × ℚ) :=
  tally (filterRecent now history)

/-- getConsensusPrediction (api client, lines 33-87).  Returns the filtered
history (the source filters predictionHistory in place) together with the
consensus result; null whenever the history is empty, empties after age
eviction, or the winning vote share is below the hard-coded 0.6. -/
def getConsensusPrediction (now : ℤ) (history : List HistEntry) :
    List HistEntry × Option ConsensusResult :=
  if history = [] then (history, none)
  else
    let history := filterRecent now history
    if history = [] then (history, none)
    else
      let best := selectBest (tally history)
      let agreement : ℚ := (best.2.1 : ℚ) / (history.length : ℚ)
      if agreement < 60/100 then (history, none)
      else (history, some ⟨best.1, best.2.2, agreement, best.2.1, history.length⟩)

/-! Capture throttle and recognition path (api client part_003, script.js). -/

/-- CAPTURE_INTERVAL (api client): minimum interval between requests, 300 ms. -/
def CAPTURE_INTERVAL : ℤ := 300

/-- A parsed /predict response: fields consumed by the callers. -/
structure APIResult where
  prediction : String
  confidence : ℚ
deriving DecidableEq

/-- The mutable globals of captureAndPredict: lastCaptureTime, the
isProcessing in-flight flag and the stored lastPrediction. -/
structure CaptureState where
  lastCaptureTime : ℤ
  isProcessing : Bool
  lastPrediction : Option APIResult
deriving DecidableEq

/-- Whether a captureAndPredict call issued a request or returned null at
the throttle guard. -/
inductive CaptureOutcome where
  | throttled
  | issued
deriving DecidableEq

/-- Initial values of the captureAndPredict globals. -/
def initialCaptureState : CaptureState :=
  { lastCaptureTime := 0, isProcessing := false, lastPrediction := none }

/-- The synchronous prefix of captureAndPredict: return null at once when
the interval has not elapsed or a request is in flight; otherwise stamp
lastCaptureTime, raise isProcessing and issue the request. -/
def captureCall (now : ℤ) (s : CaptureState) : CaptureOutcome × CaptureState :=
  if now - s.lastCaptureTime < CAPTURE_INTERVAL ∨ s.isProcessing
  then (CaptureOutcome.throttled, s)
  else (CaptureOutcome.issued,
    { s with lastCaptureTime := now, isProcessing := true })

/-- Completion of an issued request: success stores the result in
lastPrediction, failure only drops the in-flight flag; both clear
isProcessing. -/
def captureComplete (result : Option APIResult) (s : CaptureState) :
    CaptureState :=
  match result with
  | some r => { s with isProcessing := false, lastPrediction := some r }
  | none => { s with isProcessing := false }

/-- An event of a captureAndPredict trace: a call at a given Date.now(), or
the completion of the in-flight request. -/
inductive CaptureEvent where
  | call (now : ℤ)
  | complete (result : Option APIResult)

/-- Run a trace of capture events, collecting the times at which requests
were actually issued. -/
def runCapture (events : List CaptureEvent) (s : CaptureState) :
    CaptureState × List ℤ :=
  match events with
  | [] => (s, [])
  | CaptureEvent.call now :: rest =>
      match captureCall now s with
      | (CaptureOutcome.issued, s1) =>
          let r := runCapture rest s1
          (r.1, now :: r.2)
      | (CaptureOutcome.throttled, s1) => runCapture rest s1
  | CaptureEvent.complete result :: rest =>
      runCapture rest (captureComplete result s)

/-- The value recognizeWithAPI hands back to script.js (top3 and the model
metadata are passed through unused and omitted). -/
structure RecResult where
  gesture : String
  confidence : ℚ
deriving DecidableEq

/-- recognizeWithAPI (api client part_003, lines 199-234): refuse when
translation is inactive or no hand is detected; otherwise use the fresh
captureAndPredict result when present and fall back to the stored
lastPrediction, reporting its prediction when that is a nonempty string. -/
def recognizeWithAPI (isTranslationActive : Bool) (handDetected : Bool)
    (captureResult lastPrediction : Option APIResult) : Option RecResult :=
  if isTranslationActive = false then none
  else if handDetected = false then none
  else
    let currentResult :=
      match captureResult with
      | some r => some r
      | none => lastPrediction
    match currentResult with
    | some r => if r.prediction = "" then none else some ⟨r.prediction, r.confidence⟩
    | none => none

/-- GESTURE_TRANSLATIONS (script.js): the identity table on the ASL
alphabet. -/
def GESTURE_TRANSLATIONS : List (String × String) :=
  [("A", "A"), ("B", "B"), ("C", "C"), ("D", "D"), ("E", "E"),
   ("F", "F"), ("G", "G"), ("H", "H"), ("I", "I"), ("J", "J"),
   ("K", "K"), ("L", "L"), ("M", "M"), ("N", "N"), ("O", "O"),
   ("P", "P"), ("Q", "Q"), ("R", "R"), ("S", "S"), ("T", "T"),
   ("U", "U"), ("V", "V"), ("W", "W"), ("X", "X"), ("Y", "Y"),
   ("Z", "Z")]

/-- GESTURE_TRANSLATIONS[g] with the || g fallback of the source. -/
def translationLookup (g : String) : String :=
  match GESTURE_TRANSLATIONS.lookup g with
  | some t => t
  | none => g

/-- recognizeGestureWithTF (script.js, lines 490-519): null when the model
is not loaded; otherwise wrap the recognizeWithAPI result (when its gesture
field is truthy) into a Gesture with its translation. -/
def recognizeGestureWithTF (modelLoaded isTranslationActive handDetected : Bool)
    (captureResult lastPrediction : Option APIResult) : Option Gesture :=
  if modelLoaded = false then none
  else
    match recognizeWithAPI isTranslationActive handDetected captureResult
        lastPrediction with
    | some r =>
        if r.gesture = "" then none
        else some ⟨r.gesture, translationLookup r.gesture, r.confidence⟩
    | none => none

/-- recognizeGesture (script.js, lines 527-541): API-based recognition
only; null whenever the model is not loaded or the API path yields
nothing. -/
def recognizeGesture (modelLoaded isTranslationActive handDetected : Bool)
    (captureResult lastPrediction : Option APIResult) : Option Gesture :=
  if modelLoaded then
    match recognizeGestureWithTF modelLoaded isTranslationActive handDetected
        captureResult lastPrediction with
    | some t => some t
    | none => none
  else none

/-- The single-hand branch of processTranslationGestures for one frame: a
recognized gesture is handed to displayAndProcessGesture, a null result
leaves the state alone. -/
def processSingleHandFrame (gesture : Option Gesture) (now : ℤ)
    (s : SystemState) : SystemState :=
  match gesture with
  | some g => displayAndProcessGesture g false now s
  | none => s

section SelectLemmas

/-- The (maxVotes, bestAvgConfidence) part of a selection accumulator. -/
def accKey (acc : Option String × ℕ × ℚ) : ℕ × ℚ := (acc.2.1, acc.2.2)

/-- The (voteCount, avgConfidence) key of a vote group. -/
def groupKey (g : String × ℕ × ℚ) : ℕ × ℚ := (g.2.1, avgConf g)

/-- Strict lexicographic comparison on (votes, average confidence). -/
def keyLt (p q : ℕ × ℚ) : Prop := p.1 < q.1 ∨ (p.1 = q.1 ∧ p.2 < q.2)

/-- Lexicographic comparison on (votes, average confidence). -/
def keyLe (p q : ℕ × ℚ) : Prop := p.1 < q.1 ∨ (p.1 = q.1 ∧ p.2 ≤ q.2)

lemma keyLe_refl (p : ℕ × ℚ) : keyLe p p := Or.inr ⟨rfl, le_refl _⟩

lemma keyLe_trans {p q r : ℕ × ℚ} (h1 : keyLe p q) (h2 : keyLe q r) :
    keyLe p r := by
  rcases h1 with h1 | ⟨e1, h1⟩ <;> rcases h2 with h2 | ⟨e2, h2⟩
  · exact Or.inl (h1.trans h2)
  · exact Or.inl (e2 ▸ h1)
  · exact Or.inl (e1 ▸ h2)
  · exact Or.inr ⟨e1.trans e2, h1.trans h2⟩

lemma keyLt_trans {p q r : ℕ × ℚ} (h1 : keyLt p q) (h2 : keyLt q r) :
    keyLt p r := by
  rcases h1 with h1 | ⟨e1, h1⟩ <;> rcases h2 with h2 | ⟨e2, h2⟩
  · exact Or.inl (h1.trans h2)
  · exact Or.inl (e2 ▸ h1)
  · exact Or.inl (e1 ▸ h2)
  · exact Or.inr ⟨e1.trans e2, h1.trans h2⟩

lemma keyLe_keyLt_trans {p q r : ℕ × ℚ} (h1 : keyLe p q) (h2 : keyLt q r) :
    keyLt p r := by
  rcases h1 with h1 | ⟨e1, h1⟩ <;> rcases h2 with h2 | ⟨e2, h2⟩
  · exact Or.inl (h1.trans h2)
  · exact Or.inl (e2 ▸ h1)
  · exact Or.inl (e1 ▸ h2)
  · exact Or.inr ⟨e1.trans e2, h1.trans_lt h2⟩

lemma keyLe_of_keyLt {p q : ℕ × ℚ} (h : keyLt p q) : keyLe p q := by
  rcases h with h | ⟨e, h⟩
  · exact Or.inl h
  · exact Or.inr ⟨e, le_of_lt h⟩

lemma keyLe_of_not_keyLt {p q : ℕ × ℚ} (h : ¬ keyLt p q) : keyLe q p := by
  unfold keyLt at h
  push_neg at h
  rcases Nat.lt_or_ge q.1 p.1 with hq | hq
  · exact Or.inl hq
  · have e : p.1 = q.1 := le_antisymm hq h.1
    exact Or.inr ⟨e.symm, h.2 e⟩

/-- selectStep adopts the group when its key is strictly greater than the
accumulator key. -/
lemma selectStep_pos {acc : Option String × ℕ × ℚ} {g : String × ℕ × ℚ}
    (h : keyLt (accKey acc) (groupKey g)) :
    selectStep acc g = (some g.1, g.2.1, avgConf g) := by
  unfold selectStep
  rw [if_pos]
  rcases h with h | ⟨h1, h2⟩
  · exact Or.inl h
  · exact Or.inr ⟨h1.symm, h2⟩

/-- selectStep keeps the accumulator when the group key is not strictly
greater. -/
lemma selectStep_neg {acc : Option String × ℕ × ℚ} {g : String × ℕ × ℚ}
    (h : ¬ keyLt (accKey acc) (groupKey g)) :
    selectStep acc g = acc := by
  unfold selectStep
  rw [if_neg]
  intro hc
  apply h
  rcases hc with hc | ⟨h1, h2⟩
  · exact Or.inl hc
  · exact Or.inr ⟨h1.symm, h2⟩

/-- The accumulator key never decreases along the selection loop. -/
lemma selectFold_mono (groups : List (String × ℕ × ℚ)) :
    ∀ acc, keyLe (accKey acc) (accKey (groups.foldl selectStep acc)) := by
  induction groups with
  | nil => intro acc; exact keyLe_refl _
  | cons g gs ih =>
      intro acc
      rw [List.foldl_cons]
      by_cases h : keyLt (accKey acc) (groupKey g)
      · rw [selectStep_pos h]
        refine keyLe_trans (keyLe_of_keyLt h) ?_
        have := ih (some g.1, g.2.1, avgConf g)
        exact this
      · rw [selectStep_neg h]; exact ih acc

/-- Every group key stays below the final accumulator key. -/
lemma selectFold_ub (groups : List (String × ℕ × ℚ)) :
    ∀ acc, ∀ g ∈ groups, keyLe (groupKey g) (accKey (groups.foldl selectStep acc)) := by
  induction groups with
  | nil => intro acc g hg; exact absurd hg (List.not_mem_nil g)
  | cons g gs ih =>
      intro acc x hx
      rw [List.foldl_cons]
      rcases List.mem_cons.mp hx with rfl | hx
      · by_cases h : keyLt (accKey acc) (groupKey x)
        · rw [selectStep_pos h]
          have := selectFold_mono gs (some x.1, x.2.1, avgConf x)
          exact this
        · rw [selectStep_neg h]
          exact keyLe_trans (keyLe_of_not_keyLt h) (selectFold_mono gs acc)
      · by_cases h : keyLt (accKey acc) (groupKey g)
        · rw [selectStep_pos h]; exact ih _ x hx
        · rw [selectStep_neg h]; exact ih acc x hx

/-- The selection loop either keeps its accumulator or returns the first
group whose key strictly dominates everything before it. -/
lemma selectFold_first (groups : List (String × ℕ × ℚ)) :
    ∀ acc, groups.foldl selectStep acc = acc ∨
      ∃ l₁ g l₂, groups = l₁ ++ g :: l₂ ∧
        groups.foldl selectStep acc = (some g.1, g.2.1, avgConf g) ∧
        keyLt (accKey acc) (accKey (groups.foldl selectStep acc)) ∧
        ∀ x ∈ l₁, keyLt (groupKey x) (accKey (groups.foldl selectStep acc)) := by
  induction groups with
  | nil => intro acc; exact Or.inl rfl
  | cons g gs ih =>
      intro acc
      rw [List.foldl_cons]
      by_cases h : keyLt (accKey acc) (groupKey g)
      · rw [selectStep_pos h]
        refine Or.inr ?_
        rcases ih (some g.1, g.2.1, avgConf g) with heq | ⟨l₁, g', l₂, hsplit, hval, hlt, hfirst⟩
        · refine ⟨[], g, gs, rfl, heq, ?_, ?_⟩
          · rw [heq]; exact h
          · intro x hx; exact absurd hx (List.not_mem_nil x)
        · refine ⟨g :: l₁, g', l₂, by rw [hsplit, List.cons_append], hval, ?_, ?_⟩
          · exact keyLt_trans h hlt
          · intro x hx
            rcases List.mem_cons.mp hx with rfl | hx
            · exact hlt
            · exact hfirst x hx
      · rw [selectStep_neg h]
        rcases ih acc with heq | ⟨l₁, g', l₂, hsplit, hval, hlt, hfirst⟩
        · exact Or.inl heq
        · refine Or.inr ⟨g :: l₁, g', l₂, by rw [hsplit, List.cons_append], hval, hlt, ?_⟩
          intro x hx
          rcases List.mem_cons.mp hx with rfl | hx
          · exact keyLe_keyLt_trans (keyLe_of_not_keyLt h) hlt
          · exact hfirst x hx

/-- bump keeps every vote count at least one. -/
lemma bump_pos (prediction : String) (confidence : ℚ) :
    ∀ l : List (String × ℕ × ℚ), (∀ x ∈ l, 1 ≤ x.2.1) →
      ∀ x ∈ bump prediction confidence l, 1 ≤ x.2.1 := by
  intro l
  induction l with
  | nil =>
      intro _ x hx
      simp only [bump, List.mem_singleton] at hx
      simp [hx]
  | cons e rest ih =>
      intro hl x hx
      obtain ⟨p, v, t⟩ := e
      rw [bump] at hx
      by_cases hp : prediction = p
      · rw [if_pos hp] at hx
        rcases List.mem_cons.mp hx with rfl | hx
        · exact Nat.le_add_left 1 v
        · exact hl x (List.mem_cons_of_mem _ hx)
      · rw [if_neg hp] at hx
        rcases List.mem_cons.mp hx with rfl | hx
        · exact hl (p, v, t) (List.mem_cons_self _ _)
        · exact ih (fun y hy => hl y (List.mem_cons_of_mem _ hy)) x hx

/-- Every group of a tally has at least one vote. -/
lemma tally_pos (history : List HistEntry) :
    ∀ x ∈ tally history, 1 ≤ x.2.1 := by
  have key : ∀ (l : List HistEntry) (acc : List (String × ℕ × ℚ)),
      (∀ x ∈ acc, 1 ≤ x.2.1) →
      ∀ x ∈ l.foldl (fun acc e => bump e.prediction e.confidence acc) acc,
        1 ≤ x.2.1 := by
    intro l
    induction l with
    | nil => intro acc hacc x hx; exact hacc x hx
    | cons e rest ih =>
        intro acc hacc x hx
        rw [List.foldl_cons] at hx
        exact ih _ (bump_pos e.prediction e.confidence acc hacc) x hx
  intro x hx
  exact key history [] (by intro y hy; exact absurd hy (List.not_mem_nil y)) x hx

end SelectLemmas

section CaptureLemmas

lemma captureComplete_lastCaptureTime (result : Option APIResult)
    (s : CaptureState) :
    (captureComplete result s).lastCaptureTime = s.lastCaptureTime := by
  cases result <;> rfl

/-- Along any capture trace, consecutive issued requests (seeded with the
current lastCaptureTime) are at least CAPTURE_INTERVAL apart. -/
lemma runCapture_chain (events : List CaptureEvent) :
    ∀ s : CaptureState,
      List.Chain' (fun a b => CAPTURE_INTERVAL ≤ b - a)
        (s.lastCaptureTime :: (runCapture events s).2) := by
  induction events with
  | nil => intro s; simp [runCapture]
  | cons e rest ih =>
      intro s
      cases e with
      | call now =>
          by_cases hg : now - s.lastCaptureTime < CAPTURE_INTERVAL ∨ s.isProcessing = true
          · have hc : captureCall now s = (CaptureOutcome.throttled, s) := by
              unfold captureCall
              rw [if_pos]
              simpa using hg
            rw [runCapture, hc]
            exact ih s
          · have hc : captureCall now s = (CaptureOutcome.issued,
                { s with lastCaptureTime := now, isProcessing := true }) := by
              unfold captureCall
              rw [if_neg]
              simpa using hg
            rw [runCapture, hc]
            push_neg at hg
            refine List.chain'_cons.mpr ⟨by linarith [hg.1], ?_⟩
            exact ih { s with lastCaptureTime := now, isProcessing := true }
      | complete result =>
          rw [runCapture]
          have := ih (captureComplete result s)
          rw [captureComplete_lastCaptureTime] at this
          exact this

end CaptureLemmas

/-! Claim theorems. -/

/-- Claim C1: a run of identical recognized gestures starting fresh at t0
appends nothing while every frame is earlier than t0 + holdDelay, appends
the translation exactly once over the whole run once a frame reaches
t0 + holdDelay, appends nothing more while later frames stay below
commit time + cooldown (1000 ms) + holdDelay, and commits again only at a
frame past that bound. -/
theorem holdCommitExactlyOnce (g : Gesture) (s : SystemState) (t0 tc : ℤ)
    (pre post : List ℤ)
    (hfresh : g.name ≠ s.lastGesture) (htr : g.translation ≠ "")
    (hpre : ∀ t ∈ pre, t - t0 < CONFIG.GESTURE_HOLD_DELAY)
    (hc : CONFIG.GESTURE_HOLD_DELAY ≤ tc - t0)
    (hpost : ∀ t ∈ post, t - tc < 1000 + CONFIG.GESTURE_HOLD_DELAY) :
    (runFrames g false (t0 :: pre) s).translationHistory
        = s.translationHistory ∧
    (runFrames g false (t0 :: (pre ++ tc :: post)) s).translationHistory
        = s.translationHistory ++ [g.translation] ∧
    ∀ t' : ℤ, 1000 + CONFIG.GESTURE_HOLD_DELAY ≤ t' - tc →
      (runFrames g false ((t0 :: (pre ++ tc :: post)) ++ [t']) s).translationHistory
          = s.translationHistory ++ [g.translation, g.translation] := by
  have h1 := dapg_switch_single g t0 s hfresh
  set s1 := displayAndProcessGesture g false t0 s with hs1
  have hold1 := runFrames_hold g pre s1 h1.2.1.symm
    (by intro t ht; rw [h1.2.2.1]; exact hpre t ht)
  set A := runFrames g false pre s1 with hA
  have hA_hist : A.translationHistory = s.translationHistory := by
    rw [hold1.1, h1.1]
  have hA_name : A.lastGesture = g.name := by rw [hold1.2.1, h1.2.1]
  have hA_time : A.gestureStartTime = t0 := by rw [hold1.2.2, h1.2.2.1]
  have h2 := dapg_commit_single g tc A hA_name.symm
    (by rw [hA_time]; exact hc) htr
  set s2 := displayAndProcessGesture g false tc A with hs2
  have hs2_hist : s2.translationHistory = s.translationHistory ++ [g.translation] := by
    rw [h2.1, hA_hist]
  have hs2_name : s2.lastGesture = g.name := by rw [h2.2.1, hA_name]
  have hs2_time : s2.gestureStartTime = tc + 1000 := h2.2.2
  have hold2 := runFrames_hold g post s2 hs2_name.symm
    (by intro t ht; rw [hs2_time]
        have := hpost t ht
        linarith)
  set B := runFrames g false post s2 with hB
  have hB_hist : B.translationHistory = s.translationHistory ++ [g.translation] := by
    rw [hold2.1, hs2_hist]
  have hB_name : B.lastGesture = g.name := by rw [hold2.2.1, hs2_name]
  have hB_time : B.gestureStartTime = tc + 1000 := by rw [hold2.2.2, hs2_time]
  have e1 : runFrames g false (t0 :: pre) s = A := rfl
  have e2 : runFrames g false (t0 :: (pre ++ tc :: post)) s = B := by
    rw [runFrames, List.foldl_cons, List.foldl_append, List.foldl_cons]
    rfl
  refine ⟨by rw [e1, hA_hist], by rw [e2, hB_hist], ?_⟩
  intro t' ht'
  have e3 : runFrames g false ((t0 :: (pre ++ tc :: post)) ++ [t']) s
      = displayAndProcessGesture g false t' B := by
    rw [runFrames, List.foldl_append, List.foldl_cons, List.foldl_nil]
    rw [e2.symm]
    rfl
  have h3 := dapg_commit_single g t' B hB_name.symm
    (by rw [hB_time]; linarith) htr
  rw [e3, h3.1, hB_hist, List.append_assoc]
  rfl

/-- Witness for holdCommitExactlyOnce: the "M" gesture held from t=0 with
frames at 500, 1000, 1999 (no commit), committed at 2000, idle at 2100 and
2999, and committed again at 3000. -/
theorem holdCommitExactlyOnceWitness :
    ((⟨"M", "M", 9/10⟩ : Gesture).name ≠ initialState.lastGesture ∧
     (⟨"M", "M", 9/10⟩ : Gesture).translation ≠ "" ∧
     (∀ t ∈ [(500 : ℤ), 1000, 1999], t - 0 < CONFIG.GESTURE_HOLD_DELAY) ∧
     CONFIG.GESTURE_HOLD_DELAY ≤ (2000 : ℤ) - 0 ∧
     (∀ t ∈ [(2100 : ℤ), 2999], t - 2000 < 1000 + CONFIG.GESTURE_HOLD_DELAY)) ∧
    ((runFrames ⟨"M", "M", 9/10⟩ false ((0 : ℤ) :: [500, 1000, 1999])
        initialState).translationHistory = initialState.translationHistory ∧
     (runFrames ⟨"M", "M", 9/10⟩ false
        ((0 : ℤ) :: ([500, 1000, 1999] ++ (2000 : ℤ) :: [2100, 2999]))
        initialState).translationHistory
          = initialState.translationHistory ++ ["M"] ∧
     ∀ t' : ℤ, 1000 + CONFIG.GESTURE_HOLD_DELAY ≤ t' - 2000 →
       (runFrames ⟨"M", "M", 9/10⟩ false
          (((0 : ℤ) :: ([500, 1000, 1999] ++ (2000 : ℤ) :: [2100, 2999])) ++ [t'])
          initialState).translationHistory
            = initialState.translationHistory ++ ["M", "M"]) :=
  ⟨⟨by decide, by decide, by decide, by decide, by decide⟩,
   holdCommitExactlyOnce ⟨"M", "M", 9/10⟩ initialState 0 2000
     [500, 1000, 1999] [2100, 2999]
     (by decide) (by decide) (by decide) (by decide) (by decide)⟩

/-- Claim C6: a consensus symbol differing from the tracked candidate of
its stream discards the candidate without commit and starts a fresh hold
at the switch time, with the progress indicator cleared. -/
theorem gestureSwitchRestartsHold (g : Gesture) (isTwoHand : Bool) (now : ℤ)
    (s : SystemState)
    (h : g.name ≠ (if isTwoHand then s.lastTwoHandGesture else s.lastGesture)) :
    (displayAndProcessGesture g isTwoHand now s).translationHistory
        = s.translationHistory ∧
    (if isTwoHand then
        (displayAndProcessGesture g isTwoHand now s).lastTwoHandGesture = g.name ∧
        (displayAndProcessGesture g isTwoHand now s).twoHandGestureStartTime = now
      else
        (displayAndProcessGesture g isTwoHand now s).lastGesture = g.name ∧
        (displayAndProcessGesture g isTwoHand now s).gestureStartTime = now) ∧
    (displayAndProcessGesture g isTwoHand now s).currentHoldProgress = 0 := by
  cases isTwoHand with
  | false =>
      have := dapg_switch_single g now s (by simpa using h)
      simpa using ⟨this.1, ⟨this.2.1, this.2.2.1⟩, this.2.2.2⟩
  | true =>
      have := dapg_switch_two g now s (by simpa using h)
      simpa using ⟨this.1, ⟨this.2.1, this.2.2.1⟩, this.2.2.2⟩

/-- Witness for gestureSwitchRestartsHold: the consensus switches from "M"
(held since t=0) to "N" at t=800; no "M" is committed and the hold restarts
at 800. -/
theorem gestureSwitchRestartsHoldWitness :
    ((⟨"N", "N", 9/10⟩ : Gesture).name ≠
      (if false then
        (displayAndProcessGesture ⟨"M", "M", 9/10⟩ false 0 initialState).lastTwoHandGesture
      else
        (displayAndProcessGesture ⟨"M", "M", 9/10⟩ false 0 initialState).lastGesture)) ∧
    ((displayAndProcessGesture ⟨"N", "N", 9/10⟩ false 800
        (displayAndProcessGesture ⟨"M", "M", 9/10⟩ false 0 initialState)).translationHistory
      = (displayAndProcessGesture ⟨"M", "M", 9/10⟩ false 0 initialState).translationHistory ∧
    (if false then
        (displayAndProcessGesture ⟨"N", "N", 9/10⟩ false 800
          (displayAndProcessGesture ⟨"M", "M", 9/10⟩ false 0 initialState)).lastTwoHandGesture
          = (⟨"N", "N", 9/10⟩ : Gesture).name ∧
        (displayAndProcessGesture ⟨"N", "N", 9/10⟩ false 800
          (displayAndProcessGesture ⟨"M", "M", 9/10⟩ false 0 initialState)).twoHandGestureStartTime = 800
      else
        (displayAndProcessGesture ⟨"N", "N", 9/10⟩ false 800
          (displayAndProcessGesture ⟨"M", "M", 9/10⟩ false 0 initialState)).lastGesture
          = (⟨"N", "N", 9/10⟩ : Gesture).name ∧
        (displayAndProcessGesture ⟨"N", "N", 9/10⟩ false 800
          (displayAndProcessGesture ⟨"M", "M", 9/10⟩ false 0 initialState)).gestureStartTime = 800) ∧
    (displayAndProcessGesture ⟨"N", "N", 9/10⟩ false 800
        (displayAndProcessGesture ⟨"M", "M", 9/10⟩ false 0 initialState)).currentHoldProgress = 0) :=
  ⟨by decide,
   gestureSwitchRestartsHold ⟨"N", "N", 9/10⟩ false 800
     (displayAndProcessGesture ⟨"M", "M", 9/10⟩ false 0 initialState) (by decide)⟩

/-- Counterexample to claim C4: "S" is held from t=0, three zero-hand
frames follow (covering 600 ms of absence in the scenario — the zero-hands
branch inspects no clock at all), and when "S" reappears at t=2000 it is
still committed: the in-progress candidate was not discarded and the
prediction history was not cleared. -/
theorem watchdogAbsenceCounterexample :
    (displayAndProcessGesture ⟨"S", "S", 9/10⟩ false 2000
      (onHandsResultsNoHands (onHandsResultsNoHands (onHandsResultsNoHands
        (displayAndProcessGesture ⟨"S", "S", 9/10⟩ false 0
          { initialState with
              predictionHistory := [⟨"S", 9/10, 0⟩] }))))).translationHistory
      = ["S"] ∧
    (onHandsResultsNoHands (onHandsResultsNoHands (onHandsResultsNoHands
      (displayAndProcessGesture ⟨"S", "S", 9/10⟩ false 0
        { initialState with
            predictionHistory := [⟨"S", 9/10, 0⟩] })))).predictionHistory
      = [⟨"S", 9/10, 0⟩] := by
  exact ⟨rfl, rfl⟩

/-- Claim C4 (amended): the zero-hands branch of onHandsResults only resets
the hand-count/gesture/confidence displays; no absence timer or watchdog
exists, so the hold-commit state of both streams, the transcript and the
prediction history survive hand absence of any length unchanged. -/
theorem noHandsLeavesStateUnchanged (s : SystemState) :
    (onHandsResultsNoHands s).translationHistory = s.translationHistory ∧
    (onHandsResultsNoHands s).lastGesture = s.lastGesture ∧
    (onHandsResultsNoHands s).gestureStartTime = s.gestureStartTime ∧
    (onHandsResultsNoHands s).lastTwoHandGesture = s.lastTwoHandGesture ∧
    (onHandsResultsNoHands s).twoHandGestureStartTime = s.twoHandGestureStartTime ∧
    (onHandsResultsNoHands s).predictionHistory = s.predictionHistory := by
  refine ⟨rfl, rfl, rfl, rfl, rfl, rfl⟩

/-- Counterexample to claim C5: clearOutput does not reset the consensus
prediction history — after clearing a state whose history holds one entry,
the history still holds it. -/
theorem clearOutputHistoryCounterexample :
    (clearOutput { initialState with
        translationHistory := ["H"]
        lastGesture := "H"
        gestureStartTime := 123
        predictionHistory := [⟨"A", 9/10, 0⟩] }).predictionHistory ≠ [] := by
  decide

/-- Claim C5 (amended): clearOutput always yields an empty transcript,
resets both hold-commit state machines to their idle values and the
progress indicator, and is idempotent; the consensus prediction history is
left untouched. -/
theorem clearOutputResetsTracking (s : SystemState) :
    (clearOutput s).translationHistory = [] ∧
    (clearOutput s).lastGesture = "" ∧
    (clearOutput s).gestureStartTime = 0 ∧
    (clearOutput s).lastTwoHandGesture = "" ∧
    (clearOutput s).twoHandGestureStartTime = 0 ∧
    (clearOutput s).currentHoldProgress = 0 ∧
    clearOutput (clearOutput s) = clearOutput s ∧
    (clearOutput s).predictionHistory = s.predictionHistory := by
  refine ⟨rfl, rfl, rfl, rfl, rfl, rfl, rfl, rfl⟩

/-- Claim C8: with the model not loaded, the recognition path returns the
distinguished null result instead of throwing, the frame produces no
recognized symbol, the frame-processing step leaves the whole state (and
hence the transcript) unchanged, and no backoff state is retained — the
next frame simply calls the same pure path again. -/
theorem classifierUnavailableSafe (isTranslationActive handDetected : Bool)
    (captureResult lastPrediction : Option APIResult) (now : ℤ)
    (s : SystemState) :
    recognizeGestureWithTF false isTranslationActive handDetected
        captureResult lastPrediction = none ∧
    recognizeGesture false isTranslationActive handDetected
        captureResult lastPrediction = none ∧
    processSingleHandFrame
      (recognizeGesture false isTranslationActive handDetected
        captureResult lastPrediction) now s = s := by
  refine ⟨rfl, rfl, rfl⟩

/-- Claim C7: a captureAndPredict call arriving while a request is in
flight, or within CAPTURE_INTERVAL (300 ms) of the last issued request,
sends nothing and leaves the capture state untouched (no queuing); and
along every event trace the issued requests are at least 300 ms apart. -/
theorem captureThrottleSpec :
    (∀ (now : ℤ) (s : CaptureState),
        (s.isProcessing = true ∨ now - s.lastCaptureTime < CAPTURE_INTERVAL) →
        captureCall now s = (CaptureOutcome.throttled, s)) ∧
    ∀ events : List CaptureEvent,
      List.Chain' (fun a b => CAPTURE_INTERVAL ≤ b - a)
        (runCapture events initialCaptureState).2 := by
  constructor
  · intro now s h
    unfold captureCall
    rw [if_pos]
    rcases h with h | h
    · exact Or.inr h
    · exact Or.inl h
  · intro events
    exact (runCapture_chain events initialCaptureState).tail

/-- Witness for captureThrottleSpec: a call at t=100 with an in-flight
request is throttled with the state unchanged, and the trace
[call 100, call 600] from the initial state issues requests spaced by at
least 300 ms. -/
theorem captureThrottleSpecWitness :
    (((⟨400, true, none⟩ : CaptureState).isProcessing = true ∨
        (100 : ℤ) - (⟨400, true, none⟩ : CaptureState).lastCaptureTime
          < CAPTURE_INTERVAL) ∧
      captureCall 100 ⟨400, true, none⟩
        = (CaptureOutcome.throttled, ⟨400, true, none⟩)) ∧
    List.Chain' (fun a b => CAPTURE_INTERVAL ≤ b - a)
      (runCapture [CaptureEvent.call 100, CaptureEvent.call 600]
        initialCaptureState).2 :=
  ⟨⟨Or.inl rfl,
    captureThrottleSpec.1 100 ⟨400, true, none⟩ (Or.inl rfl)⟩,
   captureThrottleSpec.2 [CaptureEvent.call 100, CaptureEvent.call 600]⟩

/-- Claim C10: when captureAndPredict yields null (throttled, in flight or
failed) but a previous successful prediction is stored, recognizeWithAPI
reports that stored prediction, and it flows unchanged through
recognizeGestureWithTF and recognizeGesture into the hold-commit logic. -/
theorem lastPredictionFallback (r : APIResult) (hr : r.prediction ≠ "") :
    recognizeWithAPI true true none (some r)
        = some ⟨r.prediction, r.confidence⟩ ∧
    recognizeGestureWithTF true true true none (some r)
        = some ⟨r.prediction, translationLookup r.prediction, r.confidence⟩ ∧
    recognizeGesture true true true none (some r)
        = some ⟨r.prediction, translationLookup r.prediction, r.confidence⟩ := by
  have h1 : recognizeWithAPI true true none (some r)
      = some ⟨r.prediction, r.confidence⟩ := by
    simp [recognizeWithAPI, hr]
  refine ⟨h1, ?_, ?_⟩
  · simp [recognizeGestureWithTF, h1, hr]
  · simp [recognizeGesture, recognizeGestureWithTF, h1, hr]

/-- Witness for lastPredictionFallback: with no fresh result and stored
prediction "A" (confidence 0.9), the full recognition path reports "A". -/
theorem lastPredictionFallbackWitness :
    ((⟨"A", 9/10⟩ : APIResult).prediction ≠ "") ∧
    (recognizeWithAPI true true none (some ⟨"A", 9/10⟩)
        = some ⟨("A" : String), (9/10 : ℚ)⟩ ∧
     recognizeGestureWithTF true true true none (some ⟨"A", 9/10⟩)
        = some ⟨"A", translationLookup "A", 9/10⟩ ∧
     recognizeGesture true true true none (some ⟨"A", 9/10⟩)
        = some ⟨"A", translationLookup "A", 9/10⟩) :=
  ⟨by decide, lastPredictionFallback ⟨"A", 9/10⟩ (by decide)⟩

/-- Claim C2: Scenario A — the history [A(0.9), A(0.85), A(0.92), B(0.6),
A(0.88)], all inside the 2000 ms window, yields consensus A with agreement
4/5 = 0.8 and average confidence (0.9 + 0.85 + 0.92 + 0.88)/4 = 0.8875. -/
theorem scenarioAConsensus :
    (getConsensusPrediction 1000
      [⟨"A", 9/10, 1000⟩, ⟨"A", 85/100, 1000⟩, ⟨"A", 92/100, 1000⟩,
       ⟨"B", 6/10, 1000⟩, ⟨"A", 88/100, 1000⟩]).2
      = some ⟨some "A", (9/10 + 85/100 + 92/100 + 88/100)/4, 4/5, 4, 5⟩ := by
  simp [getConsensusPrediction, filterRecent, tally, bump, selectBest,
    selectStep, avgConf]
  norm_num

/-- Counterexample to claim C3: a five-entry history of A at confidence 0.5
has a winning mean confidence 0.5 below the declared MIN_CONFIDENCE floor
0.6, yet getConsensusPrediction returns a consensus instead of null — the
floor is never applied. -/
theorem confidenceFloorNotEnforced :
    (getConsensusPrediction 1000
      [⟨"A", 1/2, 1000⟩, ⟨"A", 1/2, 1000⟩, ⟨"A", 1/2, 1000⟩,
       ⟨"A", 1/2, 1000⟩, ⟨"A", 1/2, 1000⟩]).2
      = some ⟨some "A", 1/2, 1, 5, 5⟩ ∧ (1 : ℚ)/2 < MIN_CONFIDENCE := by
  constructor
  · simp [getConsensusPrediction, filterRecent, tally, bump, selectBest,
      selectStep, avgConf]
    norm_num
  · norm_num [MIN_CONFIDENCE]

/-- Claim C3 (amended): getConsensusPrediction returns null exactly when
the window is empty after eviction or the winning vote share is below the
hard-coded 0.6; the MIN_CONFIDENCE floor is declared but never enforced,
so a low winning mean confidence alone never yields null.  In particular
the two-entry history [A(0.9), B(0.9)] (agreement 1/2) yields null. -/
theorem consensusNullIffLowAgreement :
    (∀ (now : ℤ) (history : List HistEntry),
      ((getConsensusPrediction now history).2 = none ↔
        (filterRecent now history = [] ∨
          ((selectBest (consensusGroups now history)).2.1 : ℚ)
              / ((filterRecent now history).length : ℚ) < 60/100))) ∧
    (getConsensusPrediction 1000
      [⟨"A", 9/10, 1000⟩, ⟨"B", 9/10, 1000⟩]).2 = none := by
  constructor
  · intro now history
    by_cases h0 : history = []
    · subst h0
      simp [getConsensusPrediction, filterRecent]
    · by_cases h1 : filterRecent now history = []
      · simp [getConsensusPrediction, consensusGroups, h0, h1]
      · by_cases h2 : ((selectBest (tally (filterRecent now history))).2.1 : ℚ)
            / ((filterRecent now history).length : ℚ) < 60/100
        · simp [getConsensusPrediction, consensusGroups, h0, h1, h2]
        · simp [getConsensusPrediction, consensusGroups, h0, h1, h2]
  · simp [getConsensusPrediction, filterRecent, tally, bump, selectBest,
      selectStep, avgConf]
    norm_num

/-- Claim C9: for every history, the selection loop of
getConsensusPrediction returns a group no other group beats — any group
tied on votes has average confidence at most the winner's — and the winner
is the first group (in first-occurrence order, as JS object keys preserve
insertion order for the string gesture labels) attaining that maximum:
every earlier group is strictly worse, so full ties resolve to the
first-seen symbol and the outcome is a function of the history alone. -/
theorem consensusTieBreakDeterministic (now : ℤ) (history : List HistEntry)
    (hne : consensusGroups now history ≠ []) :
    (∀ g ∈ consensusGroups now history,
        g.2.1 < (selectBest (consensusGroups now history)).2.1 ∨
          (g.2.1 = (selectBest (consensusGroups now history)).2.1 ∧
            avgConf g ≤ (selectBest (consensusGroups now history)).2.2)) ∧
    ∃ l₁ g l₂, consensusGroups now history = l₁ ++ g :: l₂ ∧
      selectBest (consensusGroups now history) = (some g.1, g.2.1, avgConf g) ∧
      ∀ x ∈ l₁, x.2.1 < g.2.1 ∨ (x.2.1 = g.2.1 ∧ avgConf x < avgConf g) := by
  constructor
  · intro g hg
    exact selectFold_ub (consensusGroups now history) (none, 0, 0) g hg
  · rcases selectFold_first (consensusGroups now history) (none, 0, 0) with
      heq | ⟨l₁, g, l₂, hsplit, hval, hlt, hfirst⟩
    · exfalso
      obtain ⟨g0, hg0⟩ := List.exists_mem_of_ne_nil _ hne
      have hub : keyLe (groupKey g0)
          (accKey ((consensusGroups now history).foldl selectStep (none, 0, 0))) :=
        selectFold_ub (consensusGroups now history) (none, 0, 0) g0 hg0
      rw [heq] at hub
      have hub2 : g0.2.1 < 0 ∨ (g0.2.1 = 0 ∧ avgConf g0 ≤ 0) := hub
      have hpos : 1 ≤ g0.2.1 := tally_pos (filterRecent now history) g0 hg0
      rcases hub2 with h | ⟨h, _⟩
      · omega
      · omega
    · refine ⟨l₁, g, l₂, hsplit, hval, ?_⟩
      intro x hx
      have hx2 := hfirst x hx
      rw [hval] at hx2
      exact hx2

/-- Witness for consensusTieBreakDeterministic: the history
[A(0.8), B(0.9)] at t=0 ties on votes; the winner is resolved by the mean
confidence tie-break and the first-seen rule. -/
theorem consensusTieBreakDeterministicWitness :
    consensusGroups 0 [⟨"A", 8/10, 0⟩, ⟨"B", 9/10, 0⟩] ≠ [] ∧
    ((∀ g ∈ consensusGroups 0 [⟨"A", 8/10, 0⟩, ⟨"B", 9/10, 0⟩],
        g.2.1 < (selectBest (consensusGroups 0 [⟨"A", 8/10, 0⟩, ⟨"B", 9/10, 0⟩])).2.1 ∨
          (g.2.1 = (selectBest (consensusGroups 0 [⟨"A", 8/10, 0⟩, ⟨"B", 9/10, 0⟩])).2.1 ∧
            avgConf g ≤ (selectBest (consensusGroups 0 [⟨"A", 8/10, 0⟩, ⟨"B", 9/10, 0⟩])).2.2)) ∧
      ∃ l₁ g l₂,
        consensusGroups 0 [⟨"A", 8/10, 0⟩, ⟨"B", 9/10, 0⟩] = l₁ ++ g :: l₂ ∧
        selectBest (consensusGroups 0 [⟨"A", 8/10, 0⟩, ⟨"B", 9/10, 0⟩])
            = (some g.1, g.2.1, avgConf g) ∧
        ∀ x ∈ l₁, x.2.1 < g.2.1 ∨ (x.2.1 = g.2.1 ∧ avgConf x < avgConf g)) :=
  ⟨by decide,
   consensusTieBreakDeterministic 0 [⟨"A", 8/10, 0⟩, ⟨"B", 9/10, 0⟩] (by decide)⟩

end ProjectSign
